import Mathlib

/-!
# Verification of the Better-OpenCodeMCP task-execution subsystem

A shallow embedding of the task-execution core of the repository:
the TaskManager lifecycle state machine (`src/tasks/taskManager.ts`),
the event codec (`src/utils/jsonEventParser.ts`), the worker-runner
exit classification and process maps (`src/tools/opencode.tool.ts`,
`src/tools/opencode-respond.tool.ts`, `src/tools/opencode-cancel.tool.ts`),
the process pool (`src/utils/processPool.ts`) and the append-only event
log (`src/persistence/taskPersistence.ts`).

Conventions of the embedding:
* JavaScript `Date.now()` instants are passed explicitly as an `Int`
  parameter `now` (milliseconds since epoch).
* The mutable `Map`s of the TypeScript classes become association lists
  keyed by `String`, mutated by pure `upsert` / `eraseKey` helpers.
* `async` methods that `throw` become functions into `Except String`.
  Callers that `try`/`catch` and continue are modelled by total wrappers
  that keep the state unchanged on error.
* External side effects (logging, the status-change callback, actual OS
  process signalling) are outside the state; the per-task child-process
  registries (`activeProcesses`, `activeRespondProcesses`) are modelled
  as lists of task ids, an id being present exactly while the child is
  live and untouched by `killProcess`/`close`.
-/

namespace OpenCodeMCP

/-! ## Task status — `src/tasks/taskManager.ts`, `TaskStatus` -/

/-- The five MCP task statuses of `taskManager.ts`. -/
inductive TaskStatus
  | working
  | input_required
  | completed
  | failed
  | cancelled
  deriving DecidableEq, Repr

/-- Model of `TaskManager.isTerminalStatus`: completed, failed or cancelled. -/
def isTerminalStatus (status : TaskStatus) : Bool :=
  status = TaskStatus.completed || status = TaskStatus.failed || status = TaskStatus.cancelled

/-! ## Events — `src/utils/jsonEventParser.ts` -/

/-- Model of `TokenUsage` of `jsonEventParser.ts`. -/
structure TokenUsage where
  input : Int
  output : Int
  reasoning : Int
  deriving DecidableEq, Repr

/-- Model of `ToolState.status` values. -/
inductive ToolStatus
  | completed
  | pending
  | error
  deriving DecidableEq, Repr

/-- Model of `ToolState` of `jsonEventParser.ts` (the `input` map is opaque to the
supervisor and is not inspected by any modelled code path, so it is
carried as an opaque string of its JSON rendering). -/
structure ToolState where
  status : ToolStatus
  input : String
  output : String
  metadataExit : Option Int
  metadataTruncated : Bool
  deriving DecidableEq, Repr

/-- Model of `StepFinishPart.reason` values. -/
inductive FinishReason
  | stop
  | toolCalls
  deriving DecidableEq, Repr

/-- The `part` payload of the four event variants of `jsonEventParser.ts`
(`StepStartPart`, `TextPart`, `ToolUsePart`, `StepFinishPart`). -/
inductive EventPart
  | stepStart (id : String) (snapshot : String)
  | text (id : String) (text : String) (timeStart : Int) (timeEnd : Int)
  | toolUse (id : String) (tool : String) (callID : String) (state : ToolState)
  | stepFinish (id : String) (reason : FinishReason) (tokens : TokenUsage) (cost : Int)
  deriving DecidableEq, Repr

/-- Model of `OpenCodeEvent`: every event carries `timestamp`, `sessionID` and a
typed `part`; the `type` tag of the TypeScript union is the constructor
of `EventPart`. -/
structure OpenCodeEvent where
  timestamp : Int
  sessionID : String
  part : EventPart
  deriving DecidableEq, Repr

/-- Model of `isStepStartEvent`: type guard on the `step_start` variant. -/
def isStepStartEvent (event : OpenCodeEvent) : Bool :=
  match event.part with
  | EventPart.stepStart _ _ => true
  | _ => false

/-- Model of `isTextEvent`: type guard on the `text` variant. -/
def isTextEvent (event : OpenCodeEvent) : Bool :=
  match event.part with
  | EventPart.text _ _ _ _ => true
  | _ => false

/-- Model of `isToolUseEvent`: type guard on the `tool_use` variant. -/
def isToolUseEvent (event : OpenCodeEvent) : Bool :=
  match event.part with
  | EventPart.toolUse _ _ _ _ => true
  | _ => false

/-- Model of `isStepFinishEvent`: type guard on the `step_finish` variant. -/
def isStepFinishEvent (event : OpenCodeEvent) : Bool :=
  match event.part with
  | EventPart.stepFinish _ _ _ _ => true
  | _ => false

/-- Model of `isCompletionEvent`: a `step_finish` with `reason = "stop"`. -/
def isCompletionEvent (event : OpenCodeEvent) : Bool :=
  match event.part with
  | EventPart.stepFinish _ FinishReason.stop _ _ => true
  | _ => false

/-- Model of `extractSessionId`: returns `event.sessionID`. -/
def extractSessionId (event : OpenCodeEvent) : String :=
  event.sessionID

/-- Model of `extractText`: returns `event.part.text`; in the source its argument
is statically a `TextEvent`, so the other branches are unreachable where
it is called and return `""` here. -/
def extractText (event : OpenCodeEvent) : String :=
  match event.part with
  | EventPart.text _ t _ _ => t
  | _ => ""

/-! ## Constants — `src/constants.ts` and `taskManager.ts` -/

/-- Model of `INPUT_REQUIRED_IDLE_THRESHOLD_MS = 30_000` from `taskManager.ts`. -/
def INPUT_REQUIRED_IDLE_THRESHOLD_MS : Int := 30000

/-- Model of `PROCESS.MAX_ACCUMULATED_TEXT_BYTES = 1_048_576` from `constants.ts`
(defined there, referenced by the spec's 1 MiB cap). -/
def MAX_ACCUMULATED_TEXT_BYTES : Nat := 1048576

/-! ## Association-list helpers standing in for the TypeScript `Map`s -/

/-- Model of `Map.set` on an association list: replace the binding of `k` if
present, else append it. -/
def upsert {α : Type} (m : List (String × α)) (k : String) (v : α) : List (String × α) :=
  match m with
  | [] => [(k, v)]
  | (k', v') :: rest => if k' = k then (k, v) :: rest else (k', v') :: upsert rest k v

/-- Model of `Map.delete` on an association list. -/
def eraseKey {α : Type} (m : List (String × α)) (k : String) : List (String × α) :=
  m.filter (fun p => decide (p.1 ≠ k))

/-- Model of `Map.get` on an association list. -/
def findKey {α : Type} (m : List (String × α)) (k : String) : Option α :=
  match m with
  | [] => none
  | (k', v') :: rest => if k' = k then some v' else findKey rest k

/-! ## TaskManager state — `src/tasks/taskManager.ts` -/

/-- Model of `TaskMetadata` of `taskManager.ts` (instants as `Int` epoch ms). -/
structure TaskMetadata where
  taskId : String
  sessionId : String
  title : String
  model : String
  agent : Option String
  createdAt : Int
  lastEventAt : Int
  deriving DecidableEq, Repr

/-- Model of `TaskState` of `taskManager.ts`. -/
structure TaskState where
  status : TaskStatus
  statusMessage : Option String
  metadata : TaskMetadata
  accumulatedText : String
  lastTextEventAt : Option Int
  deriving DecidableEq, Repr

/-- The mutable fields of the `TaskManager` class: the `tasks` map and
the `inputRequiredTimers` map. A timer entry maps the task id to the
instant the timer was armed (standing in for the `setTimeout` handle:
an entry is present exactly while a timer is pending). -/
structure TaskManager where
  tasks : List (String × TaskState)
  inputRequiredTimers : List (String × Int)
  deriving DecidableEq, Repr

/-- Model of `getTaskStatus`. -/
def getTaskStatus (tm : TaskManager) (taskId : String) : Option TaskStatus :=
  (findKey tm.tasks taskId).map (fun s => s.status)

/-- The `statusMessage` of a task, for stating theorems. -/
def getStatusMessage (tm : TaskManager) (taskId : String) : Option String :=
  match findKey tm.tasks taskId with
  | none => none
  | some s => s.statusMessage

/-- The `accumulatedText` of a task, for stating theorems. -/
def getAccumulatedText (tm : TaskManager) (taskId : String) : Option String :=
  (findKey tm.tasks taskId).map (fun s => s.accumulatedText)

/-- JavaScript's `trimEnd()` at the character level: drop trailing
whitespace. -/
def trimEndChars (l : List Char) : List Char :=
  (l.reverse.dropWhile Char.isWhitespace).reverse

/-- A string that is empty after JavaScript `trim()` (every character
is whitespace); `!s.trim()` / `if (line.trim())` tests in the source. -/
def isBlank (s : String) : Bool :=
  s.data.all Char.isWhitespace

/-- Model of `TaskManager.endsWithQuestion`: `text.trimEnd().endsWith("?")`. -/
def endsWithQuestion (text : String) : Bool :=
  match (text.data.reverse.dropWhile Char.isWhitespace) with
  | c :: _ => c = '?'
  | [] => false

/-- Model of `TaskManager.clearInputRequiredTimer`. -/
def clearInputRequiredTimer (taskId : String) (tm : TaskManager) : TaskManager :=
  { tm with inputRequiredTimers := eraseKey tm.inputRequiredTimers taskId }

/-- Model of `TaskManager.scheduleInputRequiredCheck`: clear any existing timer,
then arm a fresh one (the stored `now` is the arming instant). -/
def scheduleInputRequiredCheck (now : Int) (taskId : String) (tm : TaskManager) : TaskManager :=
  let tm := clearInputRequiredTimer taskId tm
  { tm with inputRequiredTimers := upsert tm.inputRequiredTimers taskId now }

/-- Model of `TaskManager.updateStatus`: set status and message, refresh
`lastEventAt`. The status-change callback is an external side effect
and not part of the state. -/
def updateStatus (now : Int) (taskId : String) (status : TaskStatus)
    (statusMessage : Option String) (tm : TaskManager) : TaskManager :=
  match findKey tm.tasks taskId with
  | none => tm
  | some state =>
      let state := { state with
        status := status
        statusMessage := statusMessage
        metadata := { state.metadata with lastEventAt := now } }
      { tm with tasks := upsert tm.tasks taskId state }

/-- Model of `TaskManager.createTask`: the generated `task-<24 hex>` id is passed
in as `taskId` (the source draws it from `randomBytes`). -/
def createTask (now : Int) (taskId : String) (title : String) (model : String)
    (agent : Option String) (tm : TaskManager) : TaskManager :=
  let metadata : TaskMetadata :=
    { taskId := taskId, sessionId := "", title := title, model := model
      agent := agent, createdAt := now, lastEventAt := now }
  let state : TaskState :=
    { status := TaskStatus.working, statusMessage := none, metadata := metadata
      accumulatedText := "", lastTextEventAt := none }
  { tm with tasks := upsert tm.tasks taskId state }

/-- Model of `TaskManager.handleEvent`: throws on unknown task; drops events for
terminal tasks; otherwise sets the write-once session id, refreshes
`lastEventAt`, clears the pending idle-input timer, and dispatches on
the event variant exactly as the `if`/`else if` chain of the source. -/
def handleEvent (now : Int) (taskId : String) (event : OpenCodeEvent)
    (tm : TaskManager) : Except String TaskManager :=
  match findKey tm.tasks taskId with
  | none => Except.error ("Task not found: " ++ taskId)
  | some state =>
    if isTerminalStatus state.status then
      Except.ok tm
    else
      let state :=
        if state.metadata.sessionId = "" then
          { state with metadata := { state.metadata with sessionId := extractSessionId event } }
        else state
      let state := { state with metadata := { state.metadata with lastEventAt := now } }
      let tm := { tm with tasks := upsert tm.tasks taskId state }
      let tm := clearInputRequiredTimer taskId tm
      if isStepStartEvent event then
        Except.ok (updateStatus now taskId TaskStatus.working none tm)
      else if isTextEvent event then
        let text := extractText event
        let state := { state with
          accumulatedText := state.accumulatedText ++ text
          lastTextEventAt := some now }
        let tm := { tm with tasks := upsert tm.tasks taskId state }
        if endsWithQuestion state.accumulatedText then
          Except.ok (scheduleInputRequiredCheck now taskId tm)
        else
          Except.ok tm
      else if isToolUseEvent event then
        Except.ok tm
      else if isStepFinishEvent event then
        if isCompletionEvent event then
          Except.ok (updateStatus now taskId TaskStatus.completed none tm)
        else
          Except.ok tm
      else
        Except.ok tm

/-- Model of `processEvent` of `opencode.tool.ts` / `processRespondEvent` of
`opencode-respond.tool.ts`: call `handleEvent` and swallow its error
(the fire-and-forget persistence append is modelled separately in the
persistence section). -/
def processEvent (now : Int) (taskId : String) (event : OpenCodeEvent)
    (tm : TaskManager) : TaskManager :=
  match handleEvent now taskId event tm with
  | Except.ok tm' => tm'
  | Except.error _ => tm

/-- Model of `TaskManager.failTask`. -/
def failTask (now : Int) (taskId : String) (error : String)
    (tm : TaskManager) : Except String TaskManager :=
  match findKey tm.tasks taskId with
  | none => Except.error ("Task not found: " ++ taskId)
  | some state =>
    if isTerminalStatus state.status then
      Except.ok tm
    else
      let tm := clearInputRequiredTimer taskId tm
      Except.ok (updateStatus now taskId TaskStatus.failed (some error) tm)

/-- Model of `TaskManager.cancelTask`. -/
def cancelTask (now : Int) (taskId : String) (tm : TaskManager) : Except String TaskManager :=
  match findKey tm.tasks taskId with
  | none => Except.error ("Task not found: " ++ taskId)
  | some state =>
    if isTerminalStatus state.status then
      Except.ok tm
    else
      let tm := clearInputRequiredTimer taskId tm
      Except.ok (updateStatus now taskId TaskStatus.cancelled none tm)

/-- Total wrapper for `failTask` at call sites that do not await or
catch its rejection (state unchanged on the unknown-task error). -/
def failTaskTotal (now : Int) (taskId : String) (error : String)
    (tm : TaskManager) : TaskManager :=
  match failTask now taskId error tm with
  | Except.ok tm' => tm'
  | Except.error _ => tm

/-- Total wrapper for `cancelTask`, same convention. -/
def cancelTaskTotal (now : Int) (taskId : String) (tm : TaskManager) : TaskManager :=
  match cancelTask now taskId tm with
  | Except.ok tm' => tm'
  | Except.error _ => tm

/-- The body of the `setTimeout` callback armed by
`scheduleInputRequiredCheck` (fires `INPUT_REQUIRED_IDLE_THRESHOLD_MS`
after arming; `now` is the firing instant): transition to
`input_required` only if the task is still `working`, has a
`lastTextEventAt`, the elapsed time reaches the threshold and the
buffer still ends with a question mark; then drop the timer entry. -/
def inputRequiredCheckFire (now : Int) (taskId : String) (tm : TaskManager) : TaskManager :=
  match findKey tm.tasks taskId with
  | none => tm
  | some state =>
    let tm :=
      if state.status = TaskStatus.working then
        match state.lastTextEventAt with
        | some t =>
            let elapsed := now - t
            if elapsed ≥ INPUT_REQUIRED_IDLE_THRESHOLD_MS && endsWithQuestion state.accumulatedText then
              updateStatus now taskId TaskStatus.input_required (some "Waiting for user input") tm
            else tm
        | none => tm
      else tm
    { tm with inputRequiredTimers := eraseKey tm.inputRequiredTimers taskId }

/-- Model of `TaskManager.removeTask`. -/
def removeTask (taskId : String) (tm : TaskManager) : TaskManager :=
  let tm := clearInputRequiredTimer taskId tm
  { tm with tasks := eraseKey tm.tasks taskId }

/-- The TaskManager operations that ingest events or perform status
transitions (the mutators reachable while a task is registered). -/
inductive TMOp
  | handleEvent (now : Int) (taskId : String) (event : OpenCodeEvent)
  | failTask (now : Int) (taskId : String) (msg : String)
  | cancelTask (now : Int) (taskId : String)
  | timerFire (now : Int) (taskId : String)
  deriving Repr

/-- Apply one operation (event handling through the catching
`processEvent` wrapper, `failTask`/`cancelTask` through their total
wrappers, timer firing directly). -/
def TMOp.apply : TMOp → TaskManager → TaskManager
  | TMOp.handleEvent now taskId event, tm => processEvent now taskId event tm
  | TMOp.failTask now taskId msg, tm => failTaskTotal now taskId msg tm
  | TMOp.cancelTask now taskId, tm => cancelTaskTotal now taskId tm
  | TMOp.timerFire now taskId, tm => inputRequiredCheckFire now taskId tm

/-! ## Worker-runner spawn calls — `opencode.tool.ts`, `opencode-respond.tool.ts` -/

/-- One invocation of Node's `spawn(command, args, options)`: the
command, the argv vector and the `shell` option (the fixed
`stdio: ["ignore", "pipe", "pipe"]` carries no information). -/
structure SpawnCall where
  command : String
  args : List String
  shell : Bool
  deriving DecidableEq, Repr

/-- The `spawn` call issued by `spawnOpenCodeProcess` of
`opencode.tool.ts`: argv is `[-m, model, --format, json]`, then the
optional `--agent agent` pair, then the single prompt argument (the
task, with the output guidance appended when present); `shell: false`. -/
def spawnOpenCodeProcessCall (task : String) (model : String)
    (agent : Option String) (outputGuidance : Option String) : SpawnCall :=
  let args := ["-m", model, "--format", "json"]
  let args :=
    match agent with
    | some a => args ++ ["--agent", a]
    | none => args
  let fullPrompt :=
    match outputGuidance with
    | some g => task ++ "\n\nOutput guidance: " ++ g
    | none => task
  { command := "opencode", args := args ++ [fullPrompt], shell := false }

/-- The `spawn` call issued by `spawnOpenCodeRespondProcess` of
`opencode-respond.tool.ts`: argv is
`[run, --session, sessionId, --format, json, response]`; the source
passes `shell: true` in the options object. -/
def spawnOpenCodeRespondProcessCall (sessionId : String) (response : String) : SpawnCall :=
  { command := "opencode"
    args := ["run", "--session", sessionId, "--format", "json", response]
    shell := true }

/-! ## Process registries and exit classification -/

/-- The module-level process maps of the two tools: `activeProcesses` /
`processTimeouts` of `opencode.tool.ts` and `activeRespondProcesses` /
`respondTimeouts` of `opencode-respond.tool.ts`. A task id is a member
exactly while the corresponding child / timeout is live. -/
structure RunnerState where
  activeProcesses : List String
  processTimeouts : List String
  activeRespondProcesses : List String
  respondTimeouts : List String
  deriving DecidableEq, Repr

/-- Model of `killTaskProcess` of `opencode.tool.ts`: if no entry in
`activeProcesses`, return `false`; else `killProcess` it, drop it from
`activeProcesses`, clear and drop its runtime timeout, return `true`. -/
def killTaskProcess (taskId : String) (rs : RunnerState) : Bool × RunnerState :=
  if taskId ∈ rs.activeProcesses then
    (true,
      { rs with
        activeProcesses := rs.activeProcesses.filter (fun t => decide (t ≠ taskId))
        processTimeouts := rs.processTimeouts.filter (fun t => decide (t ≠ taskId)) })
  else
    (false, rs)

/-- The exit-classification block of the `close` handler in
`spawnOpenCodeProcess` (`opencode.tool.ts`, after the timeout is
cleared and the remaining stdout buffer is flushed): only when the task
status is `working` does a non-null non-zero exit code fail the task
with `"Process exited with code <n>"`, else a signal fails it with
`"Process killed by signal <sig>"`. -/
def closeStatusCheck (now : Int) (taskId : String) (code : Option Int)
    (signal : Option String) (tm : TaskManager) : TaskManager :=
  if getTaskStatus tm taskId = some TaskStatus.working then
    match code with
    | some c =>
        if c ≠ 0 then
          failTaskTotal now taskId ("Process exited with code " ++ toString c) tm
        else
          match signal with
          | some sg => failTaskTotal now taskId ("Process killed by signal " ++ sg) tm
          | none => tm
    | none =>
        match signal with
        | some sg => failTaskTotal now taskId ("Process killed by signal " ++ sg) tm
        | none => tm
  else
    tm

/-! ## Control tools — `opencode-respond.tool.ts`, `opencode-cancel.tool.ts` -/

/-- The result document `{taskId, status, message}` returned by the
respond and cancel tools (the cancel tool types `status` as a plain
string; both are rendered here through `statusToString`). -/
structure ToolResultDoc where
  taskId : String
  status : String
  message : String
  deriving DecidableEq, Repr

/-- Rendering of a `TaskStatus` as its JSON string value. -/
def statusToString : TaskStatus → String
  | TaskStatus.working => "working"
  | TaskStatus.input_required => "input_required"
  | TaskStatus.completed => "completed"
  | TaskStatus.failed => "failed"
  | TaskStatus.cancelled => "cancelled"

/-- Model of `opencodeRespondTool.execute`: throws on blank `taskId`/`response`;
returns an error document on unknown task, wrong status or missing
session id; otherwise spawns the continuation child (recorded in
`activeRespondProcesses` with its runtime timeout) and returns
`{status: "working", ...}`. The returned pair carries the TaskManager
and runner state after the call: the source reads the registry through
`getTaskState` but never mutates it. -/
def opencodeRespondExecute (taskId : String) (response : String)
    (tm : TaskManager) (rs : RunnerState) :
    Except String (ToolResultDoc × TaskManager × RunnerState) :=
  if isBlank taskId then
    Except.error "taskId is required and cannot be empty"
  else if isBlank response then
    Except.error "response is required and cannot be empty"
  else
    match findKey tm.tasks taskId with
    | none =>
        Except.ok
          ({ taskId := taskId, status := statusToString TaskStatus.failed
             message := "Task not found: " ++ taskId }, tm, rs)
    | some taskState =>
      if taskState.status ≠ TaskStatus.input_required then
        Except.ok
          ({ taskId := taskId, status := statusToString taskState.status
             message := "Task is not waiting for input. Current status: "
               ++ statusToString taskState.status
               ++ ". Only tasks in 'input_required' state can receive responses." }, tm, rs)
      else
        let sessionId := taskState.metadata.sessionId
        if sessionId = "" then
          Except.ok
            ({ taskId := taskId, status := statusToString taskState.status
               message := "Task has no session ID. Cannot continue session without a valid sessionId." },
             tm, rs)
        else
          let rs := { rs with
            activeRespondProcesses := taskId :: rs.activeRespondProcesses
            respondTimeouts := taskId :: rs.respondTimeouts }
          Except.ok
            ({ taskId := taskId, status := statusToString TaskStatus.working
               message := "Response sent to task. Session " ++ sessionId ++ " is continuing." },
             tm, rs)

/-- Model of `opencodeCancelTool.execute`: throws on blank `taskId`; error
document on unknown task; already-terminal document on terminal task;
otherwise `killTaskProcess`, `cancelTask`, and a cancelled document. -/
def opencodeCancelExecute (now : Int) (taskId : String)
    (tm : TaskManager) (rs : RunnerState) :
    Except String (ToolResultDoc × TaskManager × RunnerState) :=
  if isBlank taskId then
    Except.error "taskId is required and cannot be empty"
  else
    match findKey tm.tasks taskId with
    | none =>
        Except.ok
          ({ taskId := taskId, status := "failed"
             message := "Task not found: " ++ taskId }, tm, rs)
    | some state =>
      if state.status = TaskStatus.completed || state.status = TaskStatus.failed
          || state.status = TaskStatus.cancelled then
        Except.ok
          ({ taskId := taskId, status := statusToString state.status
             message := "Task is already in terminal state: " ++ statusToString state.status },
           tm, rs)
      else
        let killed := killTaskProcess taskId rs
        let rs := killed.2
        let tm := cancelTaskTotal now taskId tm
        Except.ok
          ({ taskId := taskId, status := "cancelled"
             message := "Task cancelled successfully"
               ++ (if killed.1 then " (process terminated)" else "") },
           tm, rs)

/-! ## Process pool — `src/utils/processPool.ts` -/

/-- The mutable fields of the `ProcessPool` class. Queued tasks are
represented by opaque identifiers; `running` counts slots in use. -/
structure ProcessPool where
  maxConcurrent : Nat
  running : Nat
  queue : List Nat
  deriving DecidableEq, Repr

/-- Model of `ProcessPool.execute`: run immediately if below the limit
(`runTask` increments `running`), else enqueue. -/
def ProcessPool.execute (p : ProcessPool) (t : Nat) : ProcessPool :=
  if p.running < p.maxConcurrent then
    { p with running := p.running + 1 }
  else
    { p with queue := p.queue ++ [t] }

/-- Model of `ProcessPool.processQueue`: admit the head of the queue if a slot
is free. -/
def ProcessPool.processQueue (p : ProcessPool) : ProcessPool :=
  if p.queue.length > 0 && p.running < p.maxConcurrent then
    { p with queue := p.queue.tail, running := p.running + 1 }
  else p

/-- The `finally` block of `ProcessPool.runTask` when a running task
settles: release the slot, then `processQueue`. -/
def ProcessPool.finishTask (p : ProcessPool) : ProcessPool :=
  ProcessPool.processQueue { p with running := p.running - 1 }

/-- Model of `ProcessPool.getStatus`. -/
def ProcessPool.getStatus (p : ProcessPool) : Nat × Nat × Nat :=
  (p.running, p.queue.length, p.maxConcurrent)

/-- The complete operation set of the `ProcessPool` class as defined in
`src/utils/processPool.ts`: submitting a task and a running task
settling. The class declares no other mutator (in particular, no
`setPoolSize`). -/
inductive PoolOp
  | execute (t : Nat)
  | finishTask
  deriving Repr

/-- Apply one pool operation. -/
def PoolOp.apply : PoolOp → ProcessPool → ProcessPool
  | PoolOp.execute t, p => ProcessPool.execute p t
  | PoolOp.finishTask, p => ProcessPool.finishTask p

/-! ## Persistence event log — `src/persistence/taskPersistence.ts` -/

/-- A task's `<taskId>.output.jsonl` file as its list of LF-terminated
lines (each `appendFile` of `appendEvent` writes exactly one line, as
`JSON.stringify` never emits a raw newline). -/
abbrev LogFile := List String

/-- Model of `TaskPersistence.appendEvent` at the line level: append
`JSON.stringify(event)` as one line. `enc` is the JSON rendering of an
event. -/
def appendEvent (enc : OpenCodeEvent → String) (file : LogFile)
    (event : OpenCodeEvent) : LogFile :=
  file ++ [enc event]

/-- A sequence of `appendEvent` calls. -/
def appendEvents (enc : OpenCodeEvent → String) (file : LogFile)
    (events : List OpenCodeEvent) : LogFile :=
  events.foldl (appendEvent enc) file

/-- Model of `TaskPersistence.loadEvents` at the line level: skip blank lines,
`JSON.parse` the rest and drop lines that fail to parse (the parsed
value is pushed without further validation). `jparse` is `JSON.parse`
restricted to event-shaped results (`none` = parse failure). -/
def loadEvents (jparse : String → Option OpenCodeEvent) (file : LogFile) :
    List OpenCodeEvent :=
  file.filterMap (fun line => if isBlank line then none else jparse line)

/-! ## Association-list lemmas -/

theorem findKey_upsert_self {α : Type} (m : List (String × α)) (k : String) (v : α) :
    findKey (upsert m k v) k = some v := by
  induction m with
  | nil => simp [upsert, findKey]
  | cons p rest ih =>
    obtain ⟨k', v'⟩ := p
    by_cases h : k' = k
    · simp [upsert, h, findKey]
    · simp [upsert, h, findKey, ih]

theorem findKey_upsert_ne {α : Type} (m : List (String × α)) (k k' : String) (v : α)
    (h : k' ≠ k) : findKey (upsert m k v) k' = findKey m k' := by
  induction m with
  | nil => simp [upsert, findKey, Ne.symm h]
  | cons p rest ih =>
    obtain ⟨k₀, v₀⟩ := p
    by_cases h₀ : k₀ = k
    · subst h₀
      simp [upsert, findKey, Ne.symm h]
    · simp [upsert, h₀, findKey, ih]

theorem findKey_eraseKey_self {α : Type} (m : List (String × α)) (k : String) :
    findKey (eraseKey m k) k = none := by
  induction m with
  | nil => simp [eraseKey, findKey]
  | cons p rest ih =>
    obtain ⟨k₀, v₀⟩ := p
    by_cases h₀ : k₀ = k
    · simpa [eraseKey, h₀] using ih
    · simpa [eraseKey, h₀, findKey] using ih

theorem findKey_eraseKey_ne {α : Type} (m : List (String × α)) (k k' : String)
    (h : k' ≠ k) : findKey (eraseKey m k) k' = findKey m k' := by
  induction m with
  | nil => simp [eraseKey, findKey]
  | cons p rest ih =>
    obtain ⟨k₀, v₀⟩ := p
    by_cases h₀ : k₀ = k
    · subst h₀
      simpa [eraseKey, findKey, Ne.symm h] using ih
    · by_cases h₁ : k₀ = k'
      · subst h₁
        simp [eraseKey, List.filter_cons, h, findKey]
      · simpa [eraseKey, List.filter_cons, h₀, findKey, h₁] using ih

/-! ## Concrete fixtures used by counterexamples and witnesses -/

/-- Metadata of a registered task with a known session. -/
def metaT1 : TaskMetadata :=
  { taskId := "task-1", sessionId := "sess-1", title := "T", model := "p/m"
    agent := none, createdAt := 0, lastEventAt := 0 }

/-- A task waiting for input (as produced by the idle-input timer). -/
def stateIR : TaskState :=
  { status := TaskStatus.input_required, statusMessage := some "Waiting for user input"
    metadata := metaT1, accumulatedText := "Proceed?", lastTextEventAt := some 0 }

/-- A manager holding the single `input_required` task `task-1`. -/
def tmIR : TaskManager := { tasks := [("task-1", stateIR)], inputRequiredTimers := [] }

/-- A freshly-working task with an empty buffer. -/
def stateW : TaskState :=
  { status := TaskStatus.working, statusMessage := none
    metadata := metaT1, accumulatedText := "", lastTextEventAt := none }

/-- A manager holding the single `working` task `task-1`. -/
def tmW : TaskManager := { tasks := [("task-1", stateW)], inputRequiredTimers := [] }

/-- A working task whose buffer ends with a question mark and whose
idle-input timer was armed at instant 5. -/
def stateArmed : TaskState :=
  { stateW with accumulatedText := "Proceed?", lastTextEventAt := some 5 }

/-- A manager holding `task-1` with its idle-input timer armed. -/
def tmArmed : TaskManager :=
  { tasks := [("task-1", stateArmed)], inputRequiredTimers := [("task-1", 5)] }

/-- A manager holding `task-1` already `completed`. -/
def tmDone : TaskManager :=
  { tasks := [("task-1", { stateW with status := TaskStatus.completed })]
    inputRequiredTimers := [] }

/-- A plain text event. -/
def textEv : OpenCodeEvent :=
  { timestamp := 1, sessionID := "sess-1", part := EventPart.text "p1" " ok" 0 1 }

/-- A question-ending text event. -/
def qEv : OpenCodeEvent :=
  { timestamp := 1, sessionID := "sess-1", part := EventPart.text "p1" "Proceed?" 0 1 }

/-- A step-start event. -/
def stepStartEv : OpenCodeEvent :=
  { timestamp := 1, sessionID := "sess-1", part := EventPart.stepStart "p0" "snap" }

/-- A tool-use event. -/
def toolUseEv : OpenCodeEvent :=
  { timestamp := 2, sessionID := "sess-1"
    part := EventPart.toolUse "p2" "bash" "c1"
      { status := ToolStatus.completed, input := "{}", output := "", metadataExit := some 0
        metadataTruncated := false } }

/-- A `step_finish` with `reason = "stop"`. -/
def finishStopEv : OpenCodeEvent :=
  { timestamp := 9, sessionID := "sess-1"
    part := EventPart.stepFinish "p9" FinishReason.stop ⟨1, 2, 3⟩ 0 }

/-- A `step_finish` with `reason = "tool-calls"`. -/
def finishToolsEv : OpenCodeEvent :=
  { timestamp := 9, sessionID := "sess-1"
    part := EventPart.stepFinish "p9" FinishReason.toolCalls ⟨1, 2, 3⟩ 0 }

/-! ## Behavioural lemmas about `handleEvent` and friends -/

/-- Dropping an event on a terminal task: `handleEvent` succeeds and
returns the manager untouched. -/
theorem handleEvent_terminal (now : Int) (tid : String) (e : OpenCodeEvent)
    (tm : TaskManager) (st : TaskState) (h : findKey tm.tasks tid = some st)
    (ht : isTerminalStatus st.status = true) :
    handleEvent now tid e tm = Except.ok tm := by
  simp [handleEvent, h, ht]

/-- Calling `failTask` on a terminal task is a no-op. -/
theorem failTask_terminal (now : Int) (tid : String) (msg : String)
    (tm : TaskManager) (st : TaskState) (h : findKey tm.tasks tid = some st)
    (ht : isTerminalStatus st.status = true) :
    failTask now tid msg tm = Except.ok tm := by
  simp [failTask, h, ht]

/-- Calling `cancelTask` on a terminal task is a no-op. -/
theorem cancelTask_terminal (now : Int) (tid : String)
    (tm : TaskManager) (st : TaskState) (h : findKey tm.tasks tid = some st)
    (ht : isTerminalStatus st.status = true) :
    cancelTask now tid tm = Except.ok tm := by
  simp [cancelTask, h, ht]

/-- The status after `processEvent` on a live (non-terminal) task, by
event variant: `step_start` forces `working`, `step_finish(stop)`
forces `completed`, and every other variant keeps the current status. -/
theorem processEvent_status (now : Int) (tid : String) (tm : TaskManager)
    (st : TaskState) (e : OpenCodeEvent) (h : findKey tm.tasks tid = some st)
    (hnt : isTerminalStatus st.status = false) :
    getTaskStatus (processEvent now tid e tm) tid =
      some (match e.part with
            | EventPart.stepStart _ _ => TaskStatus.working
            | EventPart.stepFinish _ FinishReason.stop _ _ => TaskStatus.completed
            | _ => st.status) := by
  obtain ⟨ts, sid, part⟩ := e
  by_cases hs : st.metadata.sessionId = "" <;>
  cases part with
  | stepStart i sn =>
      simp [processEvent, handleEvent, h, hnt, hs, isStepStartEvent, updateStatus,
        clearInputRequiredTimer, getTaskStatus, findKey_upsert_self]
  | text i t a b =>
      by_cases hq : endsWithQuestion (st.accumulatedText ++ t) = true <;>
        simp [processEvent, handleEvent, h, hnt, hs, hq, isStepStartEvent, isTextEvent,
          extractText, scheduleInputRequiredCheck, clearInputRequiredTimer,
          getTaskStatus, findKey_upsert_self]
  | toolUse i tool cid stt =>
      simp [processEvent, handleEvent, h, hnt, hs, isStepStartEvent, isTextEvent,
        isToolUseEvent, clearInputRequiredTimer, getTaskStatus, findKey_upsert_self]
  | stepFinish i r tk c =>
      cases r <;>
        simp [processEvent, handleEvent, h, hnt, hs, isStepStartEvent, isTextEvent,
          isToolUseEvent, isStepFinishEvent, isCompletionEvent, updateStatus,
          clearInputRequiredTimer, getTaskStatus, findKey_upsert_self]

/-- The buffer after `processEvent` of a text event on a live task:
the payload is appended unconditionally (no cap of any kind). -/
theorem processEvent_text_accumulated (now : Int) (tid : String) (tm : TaskManager)
    (st : TaskState) (ts : Int) (sid i : String) (txt : String) (a b : Int)
    (h : findKey tm.tasks tid = some st) (hnt : isTerminalStatus st.status = false) :
    getAccumulatedText
        (processEvent now tid ⟨ts, sid, EventPart.text i txt a b⟩ tm) tid =
      some (st.accumulatedText ++ txt) := by
  by_cases hs : st.metadata.sessionId = "" <;>
  by_cases hq : endsWithQuestion (st.accumulatedText ++ txt) = true <;>
    simp [processEvent, handleEvent, h, hnt, hs, hq, isStepStartEvent, isTextEvent,
      extractText, scheduleInputRequiredCheck, clearInputRequiredTimer,
      getAccumulatedText, findKey_upsert_self]

/-- Applying `processEvent` touches no task entry other than its target. -/
theorem findKey_tasks_processEvent_ne (now : Int) (tid2 : String) (e : OpenCodeEvent)
    (tm : TaskManager) (tid : String) (hne : tid ≠ tid2) :
    findKey (processEvent now tid2 e tm).tasks tid = findKey tm.tasks tid := by
  obtain ⟨ts, sid, part⟩ := e
  cases hfk : findKey tm.tasks tid2 with
  | none => simp [processEvent, handleEvent, hfk]
  | some st2 =>
    by_cases ht : isTerminalStatus st2.status = true
    · simp [processEvent, handleEvent, hfk, ht]
    · have hnt : isTerminalStatus st2.status = false := by
        simpa using ht
      by_cases hs : st2.metadata.sessionId = "" <;>
      cases part with
      | stepStart i sn =>
          simp [processEvent, handleEvent, hfk, hnt, hs, isStepStartEvent, updateStatus,
            clearInputRequiredTimer, findKey_upsert_self, findKey_upsert_ne _ _ _ _ hne]
      | text i t a b =>
          by_cases hq : endsWithQuestion (st2.accumulatedText ++ t) = true <;>
            simp [processEvent, handleEvent, hfk, hnt, hs, hq, isStepStartEvent,
              isTextEvent, extractText, scheduleInputRequiredCheck,
              clearInputRequiredTimer, findKey_upsert_ne _ _ _ _ hne]
      | toolUse i tool cid stt =>
          simp [processEvent, handleEvent, hfk, hnt, hs, isStepStartEvent, isTextEvent,
            isToolUseEvent, clearInputRequiredTimer, findKey_upsert_ne _ _ _ _ hne]
      | stepFinish i r tk c =>
          cases r <;>
            simp [processEvent, handleEvent, hfk, hnt, hs, isStepStartEvent, isTextEvent,
              isToolUseEvent, isStepFinishEvent, isCompletionEvent, updateStatus,
              clearInputRequiredTimer, findKey_upsert_self, findKey_upsert_ne _ _ _ _ hne]

/-- Applying `failTaskTotal` touches no task entry other than its target. -/
theorem findKey_tasks_failTaskTotal_ne (now : Int) (tid2 msg : String)
    (tm : TaskManager) (tid : String) (hne : tid ≠ tid2) :
    findKey (failTaskTotal now tid2 msg tm).tasks tid = findKey tm.tasks tid := by
  cases hfk : findKey tm.tasks tid2 with
  | none => simp [failTaskTotal, failTask, hfk]
  | some st2 =>
    by_cases ht : isTerminalStatus st2.status = true
    · simp [failTaskTotal, failTask, hfk, ht]
    · have hnt : isTerminalStatus st2.status = false := by simpa using ht
      simp [failTaskTotal, failTask, hfk, hnt, updateStatus, clearInputRequiredTimer,
        findKey_upsert_self, findKey_upsert_ne _ _ _ _ hne]

/-- Applying `cancelTaskTotal` touches no task entry other than its target. -/
theorem findKey_tasks_cancelTaskTotal_ne (now : Int) (tid2 : String)
    (tm : TaskManager) (tid : String) (hne : tid ≠ tid2) :
    findKey (cancelTaskTotal now tid2 tm).tasks tid = findKey tm.tasks tid := by
  cases hfk : findKey tm.tasks tid2 with
  | none => simp [cancelTaskTotal, cancelTask, hfk]
  | some st2 =>
    by_cases ht : isTerminalStatus st2.status = true
    · simp [cancelTaskTotal, cancelTask, hfk, ht]
    · have hnt : isTerminalStatus st2.status = false := by simpa using ht
      simp [cancelTaskTotal, cancelTask, hfk, hnt, updateStatus, clearInputRequiredTimer,
        findKey_upsert_self, findKey_upsert_ne _ _ _ _ hne]

/-- The timer callback touches no task entry other than its target. -/
theorem findKey_tasks_timerFire_ne (now : Int) (tid2 : String)
    (tm : TaskManager) (tid : String) (hne : tid ≠ tid2) :
    findKey (inputRequiredCheckFire now tid2 tm).tasks tid = findKey tm.tasks tid := by
  cases hfk : findKey tm.tasks tid2 with
  | none => simp [inputRequiredCheckFire, hfk]
  | some st2 =>
    by_cases hw : st2.status = TaskStatus.working
    · cases hlt : st2.lastTextEventAt with
      | none => simp [inputRequiredCheckFire, hfk, hw, hlt]
      | some t =>
        by_cases hc : (now - t ≥ INPUT_REQUIRED_IDLE_THRESHOLD_MS
            && endsWithQuestion st2.accumulatedText) = true <;>
          simp [inputRequiredCheckFire, hfk, hw, hlt, hc, updateStatus,
            findKey_upsert_self, findKey_upsert_ne _ _ _ _ hne]
    · simp [inputRequiredCheckFire, hfk, hw]

/-- Calling `failTask` on a live task: status becomes `failed` and the message
is recorded. -/
theorem failTaskTotal_status (now : Int) (tid msg : String) (tm : TaskManager)
    (st : TaskState) (h : findKey tm.tasks tid = some st)
    (hnt : isTerminalStatus st.status = false) :
    getTaskStatus (failTaskTotal now tid msg tm) tid = some TaskStatus.failed ∧
      getStatusMessage (failTaskTotal now tid msg tm) tid = some msg := by
  constructor <;>
    simp [failTaskTotal, failTask, h, hnt, updateStatus, clearInputRequiredTimer,
      getTaskStatus, getStatusMessage, findKey_upsert_self]

/-- Calling `cancelTask` on a live task: status becomes `cancelled`. -/
theorem cancelTaskTotal_status (now : Int) (tid : String) (tm : TaskManager)
    (st : TaskState) (h : findKey tm.tasks tid = some st)
    (hnt : isTerminalStatus st.status = false) :
    getTaskStatus (cancelTaskTotal now tid tm) tid = some TaskStatus.cancelled := by
  simp [cancelTaskTotal, cancelTask, h, hnt, updateStatus, clearInputRequiredTimer,
    getTaskStatus, findKey_upsert_self]

/-! ## Claim theorems -/

/-- A text payload one character longer than the documented 1 MiB cap. -/
def overflowText : String := String.mk (List.replicate (MAX_ACCUMULATED_TEXT_BYTES + 1) 'a')

/-- C1: the claim states `accumulatedText.length ≤ 1 048 576` after every
`handleEvent`. The text branch of `handleEvent` appends unconditionally
and `PROCESS.MAX_ACCUMULATED_TEXT_BYTES` is referenced nowhere, so a
single text event already drives the buffer past the cap: evaluating
the code on a working task with an empty buffer and a payload of
1 048 577 characters leaves a buffer of 1 048 577 characters. -/
theorem c1_text_cap_not_enforced :
    getAccumulatedText
        (processEvent 1 "task-1" ⟨1, "sess-1", EventPart.text "p1" overflowText 0 1⟩ tmW)
        "task-1" = some (stateW.accumulatedText ++ overflowText) ∧
    (stateW.accumulatedText ++ overflowText).length > MAX_ACCUMULATED_TEXT_BYTES := by
  constructor
  · exact processEvent_text_accumulated 1 "task-1" tmW stateW 1 "sess-1" "p1"
      overflowText 0 1 (by decide) (by decide)
  · have h1 : (stateW.accumulatedText ++ overflowText).length =
        stateW.accumulatedText.length + overflowText.length := String.length_append _ _
    have h2 : overflowText.length = MAX_ACCUMULATED_TEXT_BYTES + 1 := by
      simp only [overflowText, String.length_mk, List.length_replicate]
    omega

/-- C2: the claim states both Worker CLI spawns pass `shell = false`.
The initial spawn (`spawnOpenCodeProcess`) does, but the
session-continuation spawn (`spawnOpenCodeRespondProcess`) passes
`shell: true`, with the response text in its argv. -/
theorem c2_respond_spawn_uses_shell :
    (spawnOpenCodeProcessCall "list files" "p/m" (some "build") none).shell = false ∧
    (spawnOpenCodeRespondProcessCall "sess-1" "yes").shell = true ∧
    (spawnOpenCodeRespondProcessCall "sess-1" "yes").args =
      ["run", "--session", "sess-1", "--format", "json", "yes"] := by
  refine ⟨rfl, rfl, rfl⟩

/-- C6: the claim requires a `setPoolSize` operation. The `ProcessPool`
class of `processPool.ts` defines only `execute`, `runTask`,
`processQueue` and `getStatus`; every operation it defines preserves
`maxConcurrent`, so the pool's limit can never change after
construction — there is no resize operation. -/
theorem c6_pool_limit_immutable :
    ∀ (op : PoolOp) (p : ProcessPool), (PoolOp.apply op p).maxConcurrent = p.maxConcurrent := by
  intro op p
  cases op with
  | execute t =>
      by_cases hlt : p.running < p.maxConcurrent <;>
        simp [PoolOp.apply, ProcessPool.execute, hlt]
  | finishTask =>
      simp only [PoolOp.apply, ProcessPool.finishTask, ProcessPool.processQueue]
      split <;> rfl

/-- C3 counterexample: on a task in `input_required`, handling a text
event (a non-terminal event variant) leaves the status `input_required`
— it does not transition back to `working` as the claim states. -/
theorem c3_counterexample :
    getTaskStatus tmIR "task-1" = some TaskStatus.input_required ∧
    isTextEvent textEv = true ∧
    getTaskStatus (processEvent 5 "task-1" textEv tmIR) "task-1" ≠ some TaskStatus.working := by
  decide

/-- C3 (amended): on a task in `input_required`, only a `step_start`
event transitions the status back to `working`; text, tool-use and
`step_finish(tool-calls)` events are processed but leave the status
`input_required`, and `step_finish(stop)` transitions to `completed`. -/
theorem c3_input_required_transitions (now : Int) (tid : String) (tm : TaskManager)
    (st : TaskState) (e : OpenCodeEvent)
    (h : findKey tm.tasks tid = some st) (hst : st.status = TaskStatus.input_required) :
    (isStepStartEvent e = true →
      getTaskStatus (processEvent now tid e tm) tid = some TaskStatus.working) ∧
    (isTextEvent e = true →
      getTaskStatus (processEvent now tid e tm) tid = some TaskStatus.input_required) ∧
    (isToolUseEvent e = true →
      getTaskStatus (processEvent now tid e tm) tid = some TaskStatus.input_required) ∧
    (isStepFinishEvent e = true → isCompletionEvent e = false →
      getTaskStatus (processEvent now tid e tm) tid = some TaskStatus.input_required) ∧
    (isCompletionEvent e = true →
      getTaskStatus (processEvent now tid e tm) tid = some TaskStatus.completed) := by
  have hnt : isTerminalStatus st.status = false := by
    rw [hst]
    rfl
  have hps := processEvent_status now tid tm st e h hnt
  obtain ⟨ts, sid, part⟩ := e
  cases part with
  | stepStart i sn =>
      simp_all [isStepStartEvent, isTextEvent, isToolUseEvent, isStepFinishEvent,
        isCompletionEvent]
  | text i t a b =>
      simp_all [isStepStartEvent, isTextEvent, isToolUseEvent, isStepFinishEvent,
        isCompletionEvent]
  | toolUse i tool cid stt =>
      simp_all [isStepStartEvent, isTextEvent, isToolUseEvent, isStepFinishEvent,
        isCompletionEvent]
  | stepFinish i r tk c =>
      cases r <;>
        simp_all [isStepStartEvent, isTextEvent, isToolUseEvent, isStepFinishEvent,
          isCompletionEvent]

/-- C3 witness: the amended theorem evaluated on the concrete
`input_required` fixture and a concrete text event. -/
theorem c3_input_required_transitions_witness :
    findKey tmIR.tasks "task-1" = some stateIR ∧
    stateIR.status = TaskStatus.input_required ∧
    isTextEvent textEv = true ∧
    getTaskStatus (processEvent 5 "task-1" textEv tmIR) "task-1" =
      some TaskStatus.input_required :=
  ⟨by decide, by decide, by decide,
    (c3_input_required_transitions 5 "task-1" tmIR stateIR textEv
      (by decide) (by decide)).2.1 (by decide)⟩

/-- C4 counterexample: a child of a task in `input_required` closing
with exit code 1 does not fail the task — the exit-classification block
only acts when the status is exactly `working`, so the task stays
`input_required`, contradicting the claim's "for any non-terminal
status, including input_required". -/
theorem c4_counterexample :
    getTaskStatus tmIR "task-1" = some TaskStatus.input_required ∧
    isTerminalStatus TaskStatus.input_required = false ∧
    closeStatusCheck 5 "task-1" (some 1) none tmIR = tmIR ∧
    getTaskStatus (closeStatusCheck 5 "task-1" (some 1) none tmIR) "task-1" ≠
      some TaskStatus.failed := by
  decide

/-- C4 (amended): on child close after stdout is drained, if the task
status is anything other than `working` (terminal or `input_required`)
nothing happens; if it is `working`, a non-null non-zero exit code
fails the task with `"Process exited with code <n>"`, a signal (with a
null or zero code) fails it with `"Process killed by signal <sig>"`,
and a clean zero/no-signal exit leaves it untouched. -/
theorem c4_close_exit_classification (now : Int) (tid : String) (tm : TaskManager)
    (code : Option Int) (signal : Option String) :
    (getTaskStatus tm tid ≠ some TaskStatus.working →
      closeStatusCheck now tid code signal tm = tm) ∧
    (∀ st, findKey tm.tasks tid = some st → st.status = TaskStatus.working →
      (∀ c, code = some c → c ≠ 0 →
        getTaskStatus (closeStatusCheck now tid code signal tm) tid =
            some TaskStatus.failed ∧
          getStatusMessage (closeStatusCheck now tid code signal tm) tid =
            some ("Process exited with code " ++ toString c)) ∧
      (∀ sg, (code = none ∨ code = some 0) → signal = some sg →
        getTaskStatus (closeStatusCheck now tid code signal tm) tid =
            some TaskStatus.failed ∧
          getStatusMessage (closeStatusCheck now tid code signal tm) tid =
            some ("Process killed by signal " ++ sg)) ∧
      ((code = none ∨ code = some 0) → signal = none →
        closeStatusCheck now tid code signal tm = tm)) := by
  constructor
  · intro hne
    simp [closeStatusCheck, hne]
  · intro st h hw
    have hws : getTaskStatus tm tid = some TaskStatus.working := by
      simp [getTaskStatus, h, hw]
    have hnt : isTerminalStatus st.status = false := by
      rw [hw]
      rfl
    refine ⟨?_, ?_, ?_⟩
    · intro c hc hc0
      subst hc
      have heq : closeStatusCheck now tid (some c) signal tm =
          failTaskTotal now tid ("Process exited with code " ++ toString c) tm := by
        simp [closeStatusCheck, hws, hc0]
      rw [heq]
      exact failTaskTotal_status now tid _ tm st h hnt
    · intro sg hcz hsg
      subst hsg
      have heq : closeStatusCheck now tid code (some sg) tm =
          failTaskTotal now tid ("Process killed by signal " ++ sg) tm := by
        rcases hcz with hcz | hcz <;> subst hcz <;> simp [closeStatusCheck, hws]
      rw [heq]
      exact failTaskTotal_status now tid _ tm st h hnt
    · intro hcz hsg
      subst hsg
      rcases hcz with hcz | hcz <;> subst hcz <;>
        simp [closeStatusCheck, hws]

/-- C4 witness: the amended theorem evaluated on a concrete working
task whose child exits with code 1. -/
theorem c4_close_exit_classification_witness :
    findKey tmW.tasks "task-1" = some stateW ∧
    stateW.status = TaskStatus.working ∧
    (getTaskStatus (closeStatusCheck 5 "task-1" (some 1) none tmW) "task-1" =
        some TaskStatus.failed ∧
      getStatusMessage (closeStatusCheck 5 "task-1" (some 1) none tmW) "task-1" =
        some ("Process exited with code " ++ toString (1 : Int))) :=
  ⟨by decide, by decide,
    ((c4_close_exit_classification 5 "task-1" tmW (some 1) none).2 stateW
      (by decide) (by decide)).1 1 rfl (by decide)⟩

/-- C5 counterexample: cancelling a task whose only live child is a
respond-continuation child (registered in `activeRespondProcesses`)
returns `"cancelled"` and cancels the task, but the respond child is
still live afterwards — `killTaskProcess` consults only the
`activeProcesses` map of the start tool, so "afterwards no child
process associated with the task is running" is false. -/
theorem c5_counterexample :
    getTaskStatus tmIR "task-1" = some TaskStatus.input_required ∧
    (opencodeCancelExecute 5 "task-1" tmIR ⟨[], [], ["task-1"], []⟩).toOption.map
        (fun r => (r.1.status, getTaskStatus r.2.1 "task-1",
          r.2.2.activeRespondProcesses)) =
      some ("cancelled", some TaskStatus.cancelled, ["task-1"]) := by
  decide

/-- C5 (amended): cancelling an existing non-terminal task kills a
live initial-start child if one exists (so none remains in
`activeProcesses`), transitions the task to `cancelled` and returns
status `"cancelled"`; a respond-continuation child is not killed —
`activeRespondProcesses` is left exactly as it was. -/
theorem c5_cancel_kills_start_child_only (now : Int) (tid : String)
    (tm : TaskManager) (rs : RunnerState) (st : TaskState)
    (h : findKey tm.tasks tid = some st) (hnt : isTerminalStatus st.status = false)
    (hb : isBlank tid = false) :
    ∃ doc rs2, opencodeCancelExecute now tid tm rs = Except.ok (doc, cancelTaskTotal now tid tm, rs2) ∧
      doc.status = "cancelled" ∧
      getTaskStatus (cancelTaskTotal now tid tm) tid = some TaskStatus.cancelled ∧
      tid ∉ rs2.activeProcesses ∧
      rs2.activeRespondProcesses = rs.activeRespondProcesses := by
  have hc : getTaskStatus (cancelTaskTotal now tid tm) tid = some TaskStatus.cancelled :=
    cancelTaskTotal_status now tid tm st h hnt
  have hterm : (st.status = TaskStatus.completed ∨ st.status = TaskStatus.failed ∨
      st.status = TaskStatus.cancelled) → False := by
    intro hcase
    rcases hcase with hx | hx | hx <;> rw [hx] at hnt <;> exact absurd hnt (by decide)
  by_cases hmem : tid ∈ rs.activeProcesses
  · refine ⟨{ taskId := tid, status := "cancelled"
              message := "Task cancelled successfully" ++ " (process terminated)" },
      { rs with
        activeProcesses := rs.activeProcesses.filter (fun t => decide (t ≠ tid))
        processTimeouts := rs.processTimeouts.filter (fun t => decide (t ≠ tid)) },
      ?_, rfl, hc, ?_, rfl⟩
    · simp only [opencodeCancelExecute, hb, Bool.false_eq_true, if_false, h]
      rw [if_neg]
      · simp [killTaskProcess, hmem]
      · simp only [Bool.or_eq_true, decide_eq_true_eq]
        intro hx
        exact hterm (by tauto)
    · simp [List.mem_filter]
  · refine ⟨{ taskId := tid, status := "cancelled"
              message := "Task cancelled successfully" ++ "" },
      rs, ?_, rfl, hc, hmem, rfl⟩
    simp only [opencodeCancelExecute, hb, Bool.false_eq_true, if_false, h]
    rw [if_neg]
    · simp [killTaskProcess, hmem]
    · simp only [Bool.or_eq_true, decide_eq_true_eq]
      intro hx
      exact hterm (by tauto)

/-- C5 witness: the amended theorem evaluated on a concrete working
task with a live start child. -/
theorem c5_cancel_kills_start_child_only_witness :
    findKey tmW.tasks "task-1" = some stateW ∧
    isTerminalStatus stateW.status = false ∧
    (∃ doc rs2,
      opencodeCancelExecute 5 "task-1" tmW ⟨["task-1"], ["task-1"], [], []⟩ =
        Except.ok (doc, cancelTaskTotal 5 "task-1" tmW, rs2) ∧
      doc.status = "cancelled" ∧
      getTaskStatus (cancelTaskTotal 5 "task-1" tmW) "task-1" = some TaskStatus.cancelled ∧
      "task-1" ∉ rs2.activeProcesses ∧
      rs2.activeRespondProcesses = ([] : List String)) :=
  ⟨by decide, by decide,
    c5_cancel_kills_start_child_only 5 "task-1" tmW ⟨["task-1"], ["task-1"], [], []⟩
      stateW (by decide) (by decide) (by decide)⟩

/-- C10: a successful `opencode_respond` on an `input_required` task
with a session returns a `"working"` document while leaving the
registry untouched (the returned manager is the input manager, so
`getTaskStatus` still says `input_required`), and the in-memory status
becomes `working` on a subsequent event exactly when that event is a
`step_start`. -/
theorem c10_respond_does_not_mutate_registry (tid resp : String)
    (tm : TaskManager) (rs : RunnerState) (st : TaskState)
    (h : findKey tm.tasks tid = some st) (hst : st.status = TaskStatus.input_required)
    (hsess : st.metadata.sessionId ≠ "") (hbt : isBlank tid = false)
    (hbr : isBlank resp = false) :
    ∃ doc rs2, opencodeRespondExecute tid resp tm rs = Except.ok (doc, tm, rs2) ∧
      doc.status = "working" ∧
      getTaskStatus tm tid = some TaskStatus.input_required ∧
      (∀ (now : Int) (e : OpenCodeEvent),
        getTaskStatus (processEvent now tid e tm) tid = some TaskStatus.working ↔
          isStepStartEvent e = true) := by
  have hnt : isTerminalStatus st.status = false := by
    rw [hst]
    rfl
  refine ⟨{ taskId := tid, status := "working"
            message := "Response sent to task. Session " ++ st.metadata.sessionId
              ++ " is continuing." },
    { rs with
      activeRespondProcesses := tid :: rs.activeRespondProcesses
      respondTimeouts := tid :: rs.respondTimeouts },
    ?_, rfl, by simp [getTaskStatus, h, hst], ?_⟩
  · simp [opencodeRespondExecute, hbt, hbr, h, hst, hsess, statusToString]
  · intro now e
    have hps := processEvent_status now tid tm st e h hnt
    rw [hps]
    obtain ⟨ts, sid, part⟩ := e
    cases part with
    | stepStart i sn => simp [isStepStartEvent]
    | text i t a b => simp [isStepStartEvent, hst]
    | toolUse i tool cid stt => simp [isStepStartEvent, hst]
    | stepFinish i r tk c => cases r <;> simp [isStepStartEvent, hst]

/-- C10 witness: the theorem evaluated on the concrete `input_required`
fixture. -/
theorem c10_respond_does_not_mutate_registry_witness :
    findKey tmIR.tasks "task-1" = some stateIR ∧
    stateIR.status = TaskStatus.input_required ∧
    stateIR.metadata.sessionId = "sess-1" ∧
    (∃ doc rs2,
      opencodeRespondExecute "task-1" "yes" tmIR ⟨[], [], [], []⟩ =
        Except.ok (doc, tmIR, rs2) ∧
      doc.status = "working" ∧
      getTaskStatus tmIR "task-1" = some TaskStatus.input_required ∧
      (∀ (now : Int) (e : OpenCodeEvent),
        getTaskStatus (processEvent now "task-1" e tmIR) "task-1" =
            some TaskStatus.working ↔
          isStepStartEvent e = true)) :=
  ⟨by decide, by decide, by decide,
    c10_respond_does_not_mutate_registry "task-1" "yes" tmIR ⟨[], [], [], []⟩
      stateIR (by decide) (by decide) (by decide) (by decide) (by decide)⟩

/-- C7: terminal statuses are absorbing. For a task in a terminal
status, `handleEvent` drops the event and returns the whole manager
unchanged, `failTask` and `cancelTask` are no-ops, and no reachable
mutator (`handleEvent`, `failTask`, `cancelTask` or a firing idle
timer, on any target task) changes the task's status. -/
theorem c7_terminal_absorbing (tm : TaskManager) (tid : String) (st : TaskState)
    (h : findKey tm.tasks tid = some st) (ht : isTerminalStatus st.status = true) :
    (∀ (now : Int) (e : OpenCodeEvent), handleEvent now tid e tm = Except.ok tm) ∧
    (∀ (now : Int) (msg : String), failTask now tid msg tm = Except.ok tm) ∧
    (∀ now : Int, cancelTask now tid tm = Except.ok tm) ∧
    (∀ op : TMOp, getTaskStatus (TMOp.apply op tm) tid = some st.status) := by
  have hnw : ¬(st.status = TaskStatus.working) := by
    intro hx
    rw [hx] at ht
    exact absurd ht (by decide)
  refine ⟨fun now e => handleEvent_terminal now tid e tm st h ht,
    fun now msg => failTask_terminal now tid msg tm st h ht,
    fun now => cancelTask_terminal now tid tm st h ht, ?_⟩
  intro op
  cases op with
  | handleEvent now tid2 e =>
      by_cases hne : tid = tid2
      · subst hne
        simp [TMOp.apply, processEvent, handleEvent_terminal now tid e tm st h ht,
          getTaskStatus, h]
      · simp [TMOp.apply, getTaskStatus,
          findKey_tasks_processEvent_ne now tid2 e tm tid hne, h]
  | failTask now tid2 msg =>
      by_cases hne : tid = tid2
      · subst hne
        simp [TMOp.apply, failTaskTotal, failTask_terminal now tid msg tm st h ht,
          getTaskStatus, h]
      · simp [TMOp.apply, getTaskStatus,
          findKey_tasks_failTaskTotal_ne now tid2 msg tm tid hne, h]
  | cancelTask now tid2 =>
      by_cases hne : tid = tid2
      · subst hne
        simp [TMOp.apply, cancelTaskTotal, cancelTask_terminal now tid tm st h ht,
          getTaskStatus, h]
      · simp [TMOp.apply, getTaskStatus,
          findKey_tasks_cancelTaskTotal_ne now tid2 tm tid hne, h]
  | timerFire now tid2 =>
      by_cases hne : tid = tid2
      · subst hne
        simp [TMOp.apply, inputRequiredCheckFire, h, hnw, getTaskStatus]
      · simp [TMOp.apply, getTaskStatus,
          findKey_tasks_timerFire_ne now tid2 tm tid hne, h]

/-- C7 witness: the theorem evaluated on a completed task and a
dropped `step_finish` event. -/
theorem c7_terminal_absorbing_witness :
    findKey tmDone.tasks "task-1" = some { stateW with status := TaskStatus.completed } ∧
    isTerminalStatus TaskStatus.completed = true ∧
    handleEvent 5 "task-1" finishToolsEv tmDone = Except.ok tmDone ∧
    getTaskStatus (TMOp.apply (TMOp.cancelTask 7 "task-1") tmDone) "task-1" =
      some TaskStatus.completed :=
  ⟨by decide, by decide,
    (c7_terminal_absorbing tmDone "task-1" { stateW with status := TaskStatus.completed }
      (by decide) (by decide)).1 5 finishToolsEv,
    (c7_terminal_absorbing tmDone "task-1" { stateW with status := TaskStatus.completed }
      (by decide) (by decide)).2.2.2 (TMOp.cancelTask 7 "task-1")⟩

/-- Effect of `processEvent` on a timer entry: it is left unchanged
(foreign target, unknown or terminal task), removed, or — only for a
text event on its own target whose resulting buffer ends with a
question mark — armed at the handling instant. -/
theorem timers_processEvent (now : Int) (tid2 : String) (e : OpenCodeEvent)
    (tm : TaskManager) (tid : String) :
    findKey (processEvent now tid2 e tm).inputRequiredTimers tid =
        findKey tm.inputRequiredTimers tid ∨
    findKey (processEvent now tid2 e tm).inputRequiredTimers tid = none ∨
    (tid = tid2 ∧ isTextEvent e = true ∧
      findKey (processEvent now tid2 e tm).inputRequiredTimers tid = some now ∧
      endsWithQuestion ((getAccumulatedText (processEvent now tid2 e tm) tid).getD "") =
        true) := by
  obtain ⟨ts, sid, part⟩ := e
  cases hfk : findKey tm.tasks tid2 with
  | none =>
      left
      simp [processEvent, handleEvent, hfk]
  | some st2 =>
    by_cases ht : isTerminalStatus st2.status = true
    · left
      simp [processEvent, handleEvent, hfk, ht]
    · have hnt : isTerminalStatus st2.status = false := by simpa using ht
      by_cases hne : tid = tid2
      · subst hne
        by_cases hs : st2.metadata.sessionId = "" <;>
        cases part with
        | stepStart i sn =>
            right
            left
            simp [processEvent, handleEvent, hfk, hnt, hs, isStepStartEvent,
              updateStatus, clearInputRequiredTimer, findKey_upsert_self,
              findKey_eraseKey_self]
        | text i t a b =>
            by_cases hq : endsWithQuestion (st2.accumulatedText ++ t) = true
            · right
              right
              have hacc := processEvent_text_accumulated now tid tm st2 ts sid i t a b
                hfk hnt
              refine ⟨rfl, rfl, ?_, ?_⟩
              · simp [processEvent, handleEvent, hfk, hnt, hs, hq, isStepStartEvent,
                  isTextEvent, extractText, scheduleInputRequiredCheck,
                  clearInputRequiredTimer, findKey_upsert_self]
              · rw [hacc]
                simpa using hq
            · right
              left
              simp [processEvent, handleEvent, hfk, hnt, hs, hq, isStepStartEvent,
                isTextEvent, extractText, clearInputRequiredTimer,
                findKey_eraseKey_self]
        | toolUse i tool cid stt =>
            right
            left
            simp [processEvent, handleEvent, hfk, hnt, hs, isStepStartEvent,
              isTextEvent, isToolUseEvent, clearInputRequiredTimer,
              findKey_eraseKey_self]
        | stepFinish i r tk c =>
            right
            left
            cases r <;>
              simp [processEvent, handleEvent, hfk, hnt, hs, isStepStartEvent,
                isTextEvent, isToolUseEvent, isStepFinishEvent, isCompletionEvent,
                updateStatus, clearInputRequiredTimer, findKey_upsert_self,
                findKey_eraseKey_self]
      · left
        by_cases hs : st2.metadata.sessionId = "" <;>
        cases part with
        | stepStart i sn =>
            simp [processEvent, handleEvent, hfk, hnt, hs, isStepStartEvent,
              updateStatus, clearInputRequiredTimer, findKey_upsert_self,
              findKey_eraseKey_ne _ _ _ hne]
        | text i t a b =>
            by_cases hq : endsWithQuestion (st2.accumulatedText ++ t) = true <;>
              simp [processEvent, handleEvent, hfk, hnt, hs, hq, isStepStartEvent,
                isTextEvent, extractText, scheduleInputRequiredCheck,
                clearInputRequiredTimer, findKey_upsert_ne _ _ _ _ hne,
                findKey_eraseKey_ne _ _ _ hne]
        | toolUse i tool cid stt =>
            simp [processEvent, handleEvent, hfk, hnt, hs, isStepStartEvent,
              isTextEvent, isToolUseEvent, clearInputRequiredTimer,
              findKey_eraseKey_ne _ _ _ hne]
        | stepFinish i r tk c =>
            cases r <;>
              simp [processEvent, handleEvent, hfk, hnt, hs, isStepStartEvent,
                isTextEvent, isToolUseEvent, isStepFinishEvent, isCompletionEvent,
                updateStatus, clearInputRequiredTimer, findKey_upsert_self,
                findKey_eraseKey_ne _ _ _ hne]

/-- Applying `failTaskTotal` never arms a timer: an entry is unchanged or gone. -/
theorem timers_failTaskTotal (now : Int) (tid2 msg : String) (tm : TaskManager)
    (tid : String) :
    findKey (failTaskTotal now tid2 msg tm).inputRequiredTimers tid =
        findKey tm.inputRequiredTimers tid ∨
    findKey (failTaskTotal now tid2 msg tm).inputRequiredTimers tid = none := by
  cases hfk : findKey tm.tasks tid2 with
  | none =>
      left
      simp [failTaskTotal, failTask, hfk]
  | some st2 =>
    by_cases ht : isTerminalStatus st2.status = true
    · left
      simp [failTaskTotal, failTask, hfk, ht]
    · have hnt : isTerminalStatus st2.status = false := by simpa using ht
      by_cases hne : tid = tid2
      · subst hne
        right
        simp [failTaskTotal, failTask, hfk, hnt, updateStatus, clearInputRequiredTimer,
          findKey_eraseKey_self]
      · left
        simp [failTaskTotal, failTask, hfk, hnt, updateStatus, clearInputRequiredTimer,
          findKey_upsert_self, findKey_eraseKey_ne _ _ _ hne]

/-- Applying `cancelTaskTotal` never arms a timer: an entry is unchanged or gone. -/
theorem timers_cancelTaskTotal (now : Int) (tid2 : String) (tm : TaskManager)
    (tid : String) :
    findKey (cancelTaskTotal now tid2 tm).inputRequiredTimers tid =
        findKey tm.inputRequiredTimers tid ∨
    findKey (cancelTaskTotal now tid2 tm).inputRequiredTimers tid = none := by
  cases hfk : findKey tm.tasks tid2 with
  | none =>
      left
      simp [cancelTaskTotal, cancelTask, hfk]
  | some st2 =>
    by_cases ht : isTerminalStatus st2.status = true
    · left
      simp [cancelTaskTotal, cancelTask, hfk, ht]
    · have hnt : isTerminalStatus st2.status = false := by simpa using ht
      by_cases hne : tid = tid2
      · subst hne
        right
        simp [cancelTaskTotal, cancelTask, hfk, hnt, updateStatus,
          clearInputRequiredTimer, findKey_eraseKey_self]
      · left
        simp [cancelTaskTotal, cancelTask, hfk, hnt, updateStatus,
          clearInputRequiredTimer, findKey_upsert_self,
          findKey_eraseKey_ne _ _ _ hne]

/-- The timer callback never arms a timer: an entry is unchanged or
gone. -/
theorem timers_timerFire (now : Int) (tid2 : String) (tm : TaskManager)
    (tid : String) :
    findKey (inputRequiredCheckFire now tid2 tm).inputRequiredTimers tid =
        findKey tm.inputRequiredTimers tid ∨
    findKey (inputRequiredCheckFire now tid2 tm).inputRequiredTimers tid = none := by
  cases hfk : findKey tm.tasks tid2 with
  | none =>
      left
      simp [inputRequiredCheckFire, hfk]
  | some st2 =>
    by_cases hne : tid = tid2
    · subst hne
      right
      by_cases hw : st2.status = TaskStatus.working
      · cases hlt : st2.lastTextEventAt with
        | none => simp [inputRequiredCheckFire, hfk, hw, hlt, findKey_eraseKey_self]
        | some t =>
          by_cases hc : (now - t ≥ INPUT_REQUIRED_IDLE_THRESHOLD_MS
              && endsWithQuestion st2.accumulatedText) = true <;>
            simp [inputRequiredCheckFire, hfk, hw, hlt, hc, updateStatus,
              findKey_upsert_self, findKey_eraseKey_self]
      · simp [inputRequiredCheckFire, hfk, hw, findKey_eraseKey_self]
    · left
      by_cases hw : st2.status = TaskStatus.working
      · cases hlt : st2.lastTextEventAt with
        | none => simp [inputRequiredCheckFire, hfk, hw, hlt, findKey_eraseKey_ne _ _ _ hne]
        | some t =>
          by_cases hc : (now - t ≥ INPUT_REQUIRED_IDLE_THRESHOLD_MS
              && endsWithQuestion st2.accumulatedText) = true <;>
            simp [inputRequiredCheckFire, hfk, hw, hlt, hc, updateStatus,
              findKey_upsert_self, findKey_eraseKey_ne _ _ _ hne]
      · simp [inputRequiredCheckFire, hfk, hw, findKey_eraseKey_ne _ _ _ hne]

/-- C8: the idle-input timer. (i) A timer can only become armed by a
`handleEvent` of a text event on that task whose resulting trimmed
buffer ends with `"?"`, and it is armed at the handling instant.
(ii) Handling any event on a live task disarms the pending timer — at
most a freshly armed one (same instant, text event) can replace it.
(iii) When the timer fires on a task that is still `working`, whose
buffer still ends with `"?"` and whose last text event is at least
30 s old, the task becomes `input_required` with statusMessage
`"Waiting for user input"`. (iv) In every other case — including any
terminal status — firing leaves the task registry unchanged. -/
theorem c8_idle_input_timer :
    (∀ (op : TMOp) (tm : TaskManager) (tid : String) (t : Int),
      findKey tm.inputRequiredTimers tid = none →
      findKey (TMOp.apply op tm).inputRequiredTimers tid = some t →
      ∃ e, op = TMOp.handleEvent t tid e ∧ isTextEvent e = true ∧
        endsWithQuestion ((getAccumulatedText (TMOp.apply op tm) tid).getD "") = true) ∧
    (∀ (now : Int) (tid : String) (e : OpenCodeEvent) (tm : TaskManager) (st : TaskState),
      findKey tm.tasks tid = some st → isTerminalStatus st.status = false →
      findKey (processEvent now tid e tm).inputRequiredTimers tid = none ∨
        (isTextEvent e = true ∧
          findKey (processEvent now tid e tm).inputRequiredTimers tid = some now)) ∧
    (∀ (now : Int) (tid : String) (tm : TaskManager) (st : TaskState) (t : Int),
      findKey tm.tasks tid = some st → st.status = TaskStatus.working →
      st.lastTextEventAt = some t → now - t ≥ INPUT_REQUIRED_IDLE_THRESHOLD_MS →
      endsWithQuestion st.accumulatedText = true →
      getTaskStatus (inputRequiredCheckFire now tid tm) tid =
          some TaskStatus.input_required ∧
        getStatusMessage (inputRequiredCheckFire now tid tm) tid =
          some "Waiting for user input") ∧
    (∀ (now : Int) (tid : String) (tm : TaskManager),
      (∀ st, findKey tm.tasks tid = some st → st.status = TaskStatus.working →
        ∀ t, st.lastTextEventAt = some t →
          ¬(now - t ≥ INPUT_REQUIRED_IDLE_THRESHOLD_MS ∧
            endsWithQuestion st.accumulatedText = true)) →
      (inputRequiredCheckFire now tid tm).tasks = tm.tasks) := by
  refine ⟨?_, ?_, ?_, ?_⟩
  · intro op tm tid t h0 h1
    cases op with
    | handleEvent now tid2 e =>
        simp only [TMOp.apply] at h1 ⊢
        rcases timers_processEvent now tid2 e tm tid with hch | hch | ⟨heq, htext, hsome, hq⟩
        · rw [hch, h0] at h1
          exact absurd h1 (by simp)
        · rw [hch] at h1
          exact absurd h1 (by simp)
        · subst heq
          rw [h1] at hsome
          injection hsome with hnow
          subst hnow
          exact ⟨e, rfl, htext, hq⟩
    | failTask now tid2 msg =>
        simp only [TMOp.apply] at h1
        rcases timers_failTaskTotal now tid2 msg tm tid with hch | hch
        · rw [hch, h0] at h1
          exact absurd h1 (by simp)
        · rw [hch] at h1
          exact absurd h1 (by simp)
    | cancelTask now tid2 =>
        simp only [TMOp.apply] at h1
        rcases timers_cancelTaskTotal now tid2 tm tid with hch | hch
        · rw [hch, h0] at h1
          exact absurd h1 (by simp)
        · rw [hch] at h1
          exact absurd h1 (by simp)
    | timerFire now tid2 =>
        simp only [TMOp.apply] at h1
        rcases timers_timerFire now tid2 tm tid with hch | hch
        · rw [hch, h0] at h1
          exact absurd h1 (by simp)
        · rw [hch] at h1
          exact absurd h1 (by simp)
  · intro now tid e tm st h hnt
    obtain ⟨ts, sid, part⟩ := e
    by_cases hs : st.metadata.sessionId = "" <;>
    cases part with
    | stepStart i sn =>
        left
        simp [processEvent, handleEvent, h, hnt, hs, isStepStartEvent, updateStatus,
          clearInputRequiredTimer, findKey_upsert_self, findKey_eraseKey_self]
    | text i t a b =>
        by_cases hq : endsWithQuestion (st.accumulatedText ++ t) = true
        · right
          refine ⟨rfl, ?_⟩
          simp [processEvent, handleEvent, h, hnt, hs, hq, isStepStartEvent,
            isTextEvent, extractText, scheduleInputRequiredCheck,
            clearInputRequiredTimer, findKey_upsert_self]
        · left
          simp [processEvent, handleEvent, h, hnt, hs, hq, isStepStartEvent,
            isTextEvent, extractText, clearInputRequiredTimer, findKey_eraseKey_self]
    | toolUse i tool cid stt =>
        left
        simp [processEvent, handleEvent, h, hnt, hs, isStepStartEvent, isTextEvent,
          isToolUseEvent, clearInputRequiredTimer, findKey_eraseKey_self]
    | stepFinish i r tk c =>
        left
        cases r <;>
          simp [processEvent, handleEvent, h, hnt, hs, isStepStartEvent, isTextEvent,
            isToolUseEvent, isStepFinishEvent, isCompletionEvent, updateStatus,
            clearInputRequiredTimer, findKey_upsert_self, findKey_eraseKey_self]
  · intro now tid tm st t h hw hlt hge hq
    have hc : (now - t ≥ INPUT_REQUIRED_IDLE_THRESHOLD_MS
        && endsWithQuestion st.accumulatedText) = true := by
      simp [hge, hq]
    constructor <;>
      simp [inputRequiredCheckFire, h, hw, hlt, hc, updateStatus, getTaskStatus,
        getStatusMessage, findKey_upsert_self]
  · intro now tid tm hno
    cases hfk : findKey tm.tasks tid with
    | none => simp [inputRequiredCheckFire, hfk]
    | some st =>
      by_cases hw : st.status = TaskStatus.working
      · cases hlt : st.lastTextEventAt with
        | none => simp [inputRequiredCheckFire, hfk, hw, hlt]
        | some t =>
          have hni := hno st hfk hw t hlt
          have hc : (now - t ≥ INPUT_REQUIRED_IDLE_THRESHOLD_MS
              && endsWithQuestion st.accumulatedText) = false := by
            by_cases hg : now - t ≥ INPUT_REQUIRED_IDLE_THRESHOLD_MS
            · by_cases hqq : endsWithQuestion st.accumulatedText = true
              · exact absurd ⟨hg, hqq⟩ hni
              · simp [hqq]
            · simp [hg]
          simp [inputRequiredCheckFire, hfk, hw, hlt, hc]
      · simp [inputRequiredCheckFire, hfk, hw]

/-- C8 witness: part (iii) of the theorem evaluated on a concrete
armed task 30 005 ms after its question-ending text event. -/
theorem c8_idle_input_timer_witness :
    findKey tmArmed.tasks "task-1" = some stateArmed ∧
    stateArmed.status = TaskStatus.working ∧
    stateArmed.lastTextEventAt = some 5 ∧
    ((30005 : Int) - 5 ≥ INPUT_REQUIRED_IDLE_THRESHOLD_MS) ∧
    endsWithQuestion stateArmed.accumulatedText = true ∧
    (getTaskStatus (inputRequiredCheckFire 30005 "task-1" tmArmed) "task-1" =
        some TaskStatus.input_required ∧
      getStatusMessage (inputRequiredCheckFire 30005 "task-1" tmArmed) "task-1" =
        some "Waiting for user input") :=
  ⟨by decide, by decide, by decide, by decide, by decide,
    c8_idle_input_timer.2.2.1 30005 "task-1" tmArmed stateArmed 5
      (by decide) (by decide) (by decide) (by decide) (by decide)⟩

/-- A sequence of appends is the file followed by the encoded lines. -/
theorem appendEvents_eq (enc : OpenCodeEvent → String) (file : LogFile)
    (events : List OpenCodeEvent) :
    appendEvents enc file events = file ++ events.map enc := by
  induction events generalizing file with
  | nil => simp [appendEvents]
  | cons e es ih =>
      simp only [appendEvents, List.foldl_cons, List.map_cons] at *
      rw [show appendEvent enc file e = file ++ [enc e] from rfl, ih,
        List.append_assoc]
      rfl

/-- Loading the encoded lines of a well-encoded event list recovers
exactly that list. -/
theorem loadEvents_map_enc (enc : OpenCodeEvent → String)
    (jparse : String → Option OpenCodeEvent) :
    ∀ events : List OpenCodeEvent,
      (∀ e ∈ events, jparse (enc e) = some e) →
      (∀ e ∈ events, isBlank (enc e) = false) →
      loadEvents jparse (events.map enc) = events := by
  intro events
  induction events with
  | nil =>
      intro _ _
      simp [loadEvents]
  | cons e es ih =>
      intro hdec hnb
      have h1 := hdec e (List.mem_cons_self e es)
      have h2 := hnb e (List.mem_cons_self e es)
      have ihr := ih (fun x hx => hdec x (List.mem_cons_of_mem e hx))
        (fun x hx => hnb x (List.mem_cons_of_mem e hx))
      simp only [loadEvents, List.map_cons, List.filterMap_cons, h2,
        Bool.false_eq_true, if_false, h1] at *
      rw [ihr]

/-- C9: the persistence round-trip at the line level of
`<taskId>.output.jsonl`. Provided `JSON.parse` inverts
`JSON.stringify` on each appended event (`hdec`) and serialized events
are non-blank lines (`hnb`): loading after a sequence of appends yields
the prior file's surviving events followed by exactly the appended
events in order — so each appended event sits at its append index among
the survivors — and the only elided lines are blank ones and lines
whose parse fails, as `loadEvents` elides nothing else by construction. -/
theorem c9_persistence_roundtrip (enc : OpenCodeEvent → String)
    (jparse : String → Option OpenCodeEvent) (file : LogFile)
    (events : List OpenCodeEvent)
    (hdec : ∀ e ∈ events, jparse (enc e) = some e)
    (hnb : ∀ e ∈ events, isBlank (enc e) = false) :
    loadEvents jparse (appendEvents enc file events) =
      loadEvents jparse file ++ events ∧
    ∀ i, i < events.length →
      (loadEvents jparse (appendEvents enc file events))[(loadEvents jparse file).length + i]? =
        events[i]? := by
  have hsplit : loadEvents jparse (appendEvents enc file events) =
      loadEvents jparse file ++ events := by
    rw [appendEvents_eq]
    simp only [loadEvents, List.filterMap_append]
    rw [show (events.map enc).filterMap
        (fun line => if isBlank line = true then none else jparse line) =
      loadEvents jparse (events.map enc) from rfl]
    rw [loadEvents_map_enc enc jparse events hdec hnb]
  refine ⟨hsplit, ?_⟩
  intro i hi
  rw [hsplit, List.getElem?_append_right (Nat.le_add_right _ _)]
  simp

/-- Witness encoder for the round-trip theorem: distinct short lines
for the two witness events. -/
def encW : OpenCodeEvent → String :=
  fun e => if e = textEv then "E1" else "E2"

/-- Witness decoder: the partial inverse of `encW` on the two witness
events; every other line is a parse failure. -/
def jparseW : String → Option OpenCodeEvent :=
  fun s => if s = "E1" then some textEv else if s = "E2" then some finishStopEv else none

/-- C9 witness: the round-trip theorem evaluated on a file holding one
blank, one malformed and one whitespace line, with two appended
events. -/
theorem c9_persistence_roundtrip_witness :
    (∀ e ∈ [textEv, finishStopEv], jparseW (encW e) = some e) ∧
    (∀ e ∈ [textEv, finishStopEv], isBlank (encW e) = false) ∧
    loadEvents jparseW (appendEvents encW ["", "junkline", " "] [textEv, finishStopEv]) =
      loadEvents jparseW ["", "junkline", " "] ++ [textEv, finishStopEv] :=
  ⟨by decide, by decide,
    (c9_persistence_roundtrip encW jparseW ["", "junkline", " "] [textEv, finishStopEv]
      (by decide) (by decide)).1⟩

end OpenCodeMCP
